import Mathlib

/-!
# Verification of the cellular-automaton traffic model

A shallow embedding of the Nagel-Schreckenberg-style traffic simulator in
`Project2.py`, together with theorems settling the specification's claims
about it.  Python cells become a `Cell` structure over `Int`; the in-place
mutation of lanes becomes explicit state passing over `List Cell`; the
`random.random()` draws consumed by the dally rule become an injected stream
`Nat → ℚ` threaded by position; the single-lane `distance`'s fall-through
(`None`) and the resulting `TypeError` in `decelerate` become `Option`.
-/

namespace Traffic

/-- A road cell, as in the `Cell` class (lines 34-41): `state` is 1 when a car
occupies the cell and 0 otherwise; `velocity` is the car's speed, with -1 the
sentinel for an empty cell. -/
structure Cell where
  state : Int
  velocity : Int
deriving DecidableEq

/-- The default-constructed `Cell()`: empty, velocity -1. -/
def emptyCell : Cell := ⟨0, -1⟩

/-- Read `cells[k]`; out-of-range reads (which Python would refuse) default to
an empty cell and are never exercised on well-formed inputs. -/
def nth (l : List Cell) (k : Nat) : Cell := l.getD k emptyCell

/-- Python's `a % n` on a possibly negative `a` and positive `n`
(floor modulus, non-negative result). -/
def idx (a : Int) (n : Nat) : Nat := (a % (n : Int)).toNat

/-- The scan `for i in range(start, start+fuel): if hit i: return i`,
falling through to `none`. -/
def scan1 (hit : Nat → Bool) : Nat → Nat → Option Nat
  | _, 0 => none
  | start, fuel + 1 => if hit start then some start else scan1 hit (start + 1) fuel

/-- `distance` (single-lane version, lines 53-57): scans
`i = 1 .. len(cells)-1` and returns `i - 1` at the first occupied cell
`cells[(i + index) % num_cells]`; if no occupied cell is found the Python
function falls through and returns `None`. -/
def distanceS (cells : List Cell) (index num_cells : Nat) : Option Nat :=
  (scan1 (fun i => (nth cells ((i + index) % num_cells)).state == 1) 1
      (cells.length - 1)).map (fun i => i - 1)

/-- `accelerate` (lines 59-60), as a velocity transform. -/
def accelerate (v max_velocity : Int) : Int := min (v + 1) max_velocity

/-- `decelerate` (lines 62-64), as a velocity transform. -/
def decelerate (v next_distance : Int) : Int :=
  if v > next_distance then next_distance else v

/-- `randomize` (lines 210-212), as a velocity transform; `draw` is the value
returned by `random.random()`.  Note the test is `draw <= p`, not `<`. -/
def randomize (v : Int) (draw p : ℚ) : Int :=
  if draw ≤ p then max (v - 1) 0 else v

/-- The module-level constant `max_vel = 5` (line 31), read by `add_impulse`. -/
def max_vel : Int := 5

/-- `add_impulse` (lines 86-89); the cap uses the global `max_vel`, not the
parameter of the enclosing `simulate`. -/
def add_impulse (cells : List Cell) (impulse : Int) : List Cell :=
  cells.map fun c =>
    if c.state = 1 then { c with velocity := min (c.velocity + impulse) max_vel } else c

/-- `move` (single-lane version, lines 66-76).  The Python function iterates a
deep copy, checks the *live* array for a destination collision and prints
`"Collision at {next_cell}"` when one is seen, then clears the source cell and
writes the destination unconditionally.  The returned list of cell indices
models the printed collision reports; the function receives no timestep, so a
report can only ever name the cell. -/
def moveS (cells : List Cell) (num_cells : Nat) : List Cell × List Nat :=
  let copy := cells
  (List.range copy.length).foldl
    (fun (st : List Cell × List Nat) index =>
      let cell := nth copy index
      if cell.state = 1 then
        let live := st.1
        let next_cell := idx ((index : Int) + cell.velocity) num_cells
        let log :=
          if (nth live next_cell).state = 1 ∧ index ≠ next_cell then
            st.2 ++ [next_cell]
          else st.2
        (((live.set index emptyCell).set next_cell ⟨1, cell.velocity⟩), log)
      else st)
    (cells, [])

/-- The per-vehicle loop of the single-lane `update` (lines 215-220): for each
occupied index, compute the gap, then accelerate, decelerate and randomize the
velocity in place.  When `distance` falls through (`none`), the comparison
`cell.velocity > next_distance` inside `decelerate` is a Python `TypeError`
(`int > None`); this is modelled by returning `none`.  `t` is the position in
the stream of `random.random()` draws. -/
def velLoopS (num_cells : Nat) (max_velocity : Int) (p : ℚ) (draws : Nat → ℚ) :
    List Nat → List Cell → Nat → Option (List Cell × Nat)
  | [], cells, t => some (cells, t)
  | index :: rest, cells, t =>
    let cell := nth cells index
    if cell.state = 1 then
      match distanceS cells index num_cells with
      | none => none
      | some d =>
        let v1 := accelerate cell.velocity max_velocity
        let v2 := decelerate v1 (d : Int)
        let v3 := randomize v2 (draws t) p
        velLoopS num_cells max_velocity p draws rest
          (cells.set index ⟨cell.state, v3⟩) (t + 1)
    else velLoopS num_cells max_velocity p draws rest cells t

/-- `update` (single-lane version with randomization, lines 214-221): the
per-vehicle velocity loop followed by `move`.  Returns the updated lane, the
collision reports from `move`, and the next position in the draw stream;
`none` models the run dying inside `decelerate` on a `None` distance. -/
def updateS (cells : List Cell) (num_cells : Nat) (max_velocity : Int) (p : ℚ)
    (draws : Nat → ℚ) (t : Nat) : Option (List Cell × List Nat × Nat) :=
  match velLoopS num_cells max_velocity p draws (List.range cells.length) cells t with
  | none => none
  | some (cells1, t1) =>
    let m := moveS cells1 num_cells
    some (m.1, m.2, t1)

/-! ### Two-lane model -/

/-- Read `cells[i]` for a road given as a list of lanes. -/
def getLane (cells : List (List Cell)) (i : Nat) : List Cell := cells.getD i []

/-- `distance` (two-lane version, lines 360-372).  Both branches loop
`i = 1 .. len(curr_cells)-1`; the first scans `curr_cells`, the second scans
`cells[intended_lane]`; both return `i - 1` at the first occupied cell and
fall through to `return num_cells`. -/
def distanceT (cells : List (List Cell)) (curr_cells : List Cell)
    (index num_cells curr_lane intended_lane : Nat) (direction : Int) : Nat :=
  if curr_lane = intended_lane then
    match scan1 (fun i =>
        (nth curr_cells (idx (direction * i + index) num_cells)).state == 1) 1
        (curr_cells.length - 1) with
    | some i => i - 1
    | none => num_cells
  else
    match scan1 (fun i =>
        (nth (getLane cells intended_lane) (idx (direction * i + index) num_cells)).state == 1) 1
        (curr_cells.length - 1) with
    | some i => i - 1
    | none => num_cells

/-- `can_change_lanes` (lines 374-388). -/
def can_change_lanes (cells : List (List Cell)) (cell : Cell) (i index num_cells : Nat)
    (max_vels : List Int) : Bool :=
  let curr_lane := getLane cells i
  let other_lane := getLane cells ((i + 1) % 2)
  let dist_ahead := distanceT cells curr_lane index num_cells i i 1
  let dist_behind := distanceT cells curr_lane index num_cells i i (-1)
  let dist_ahead_other := distanceT cells curr_lane index num_cells i ((i + 1) % 2) 1
  let dist_behind_other := distanceT cells curr_lane index num_cells i ((i + 1) % 2) (-1)
  let cond1 : Bool := decide (cell.velocity <
    (nth curr_lane ((index + dist_ahead + 1) % num_cells)).velocity - 1 + (dist_ahead : Int) + 1)
  let cond2 : Bool := decide ((dist_ahead_other : Int) ≥ cell.velocity)
  let cond3 : Bool := decide
    ((nth curr_lane (idx ((index : Int) - ((dist_behind : Int) + 1)) num_cells)).velocity
      - ((dist_behind : Int) + 1) < cell.velocity - 1)
  let cond4 : Bool := decide
    ((nth other_lane (idx ((index : Int) - ((dist_behind_other : Int) + 1)) num_cells)).velocity
      - ((dist_behind_other : Int) + 1) < cell.velocity - 1)
  if cell.velocity ≤ max_vels.getD ((i + 1) % 2) 0 ∧ (nth other_lane index).state = 0 then
    cond1 && cond2 && cond3 && cond4
  else
    false

/-- `change_lanes` (lines 390-396): the laterally adjacent cell of the other
lane receives the vehicle's velocity and becomes occupied; the source cell is
cleared. -/
def change_lanes (cells : List (List Cell)) (i index : Nat) : List (List Cell) :=
  let curr_lane := getLane cells i
  let other_lane := getLane cells ((i + 1) % 2)
  let other1 := other_lane.set index ⟨1, (nth curr_lane index).velocity⟩
  let curr1 := curr_lane.set index emptyCell
  (cells.set ((i + 1) % 2) other1).set i curr1

/-- `move` (two-lane version, lines 398-415), acting on one lane.  A
`lane_change` flag carried across consecutive occupied iterations suppresses
clearing the source cell of the vehicle processed right after a vehicle whose
destination was occupied in the pre-move copy.  This version reports nothing:
the collision print of the single-lane `move` was dropped. -/
def moveT (cells : List Cell) (num_cells : Nat) : List Cell :=
  let copy := cells
  ((List.range copy.length).foldl
    (fun (st : List Cell × Bool) index =>
      let cell := nth copy index
      if cell.state = 1 then
        let live := st.1
        let next_cell := idx ((index : Int) + cell.velocity) num_cells
        let live2 :=
          if st.2 then live.set next_cell ⟨1, cell.velocity⟩
          else (live.set index emptyCell).set next_cell ⟨1, cell.velocity⟩
        (live2, decide ((nth copy next_cell).state = 1 ∧ index ≠ next_cell))
      else st)
    (cells, false)).1

/-- The lane-change test made for a live cell at `(i, index)` during the
lane-change phase of the two-lane `update` (lines 428-429): the vehicle must
face imminent deceleration (`cell.velocity > next_distance`, with the gap read
from the post-acceleration snapshot `copy`), and `can_change_lanes` must hold,
evaluated entirely on `copy` (including the cell argument `copy[i][index]`). -/
def lcDecision (copy : List (List Cell)) (num_cells : Nat) (max_vels : List Int)
    (i index : Nat) (liveCell : Cell) : Bool :=
  decide (liveCell.velocity > ((distanceT copy (getLane copy i) index num_cells i i 1 : Nat) : Int))
    && can_change_lanes copy (nth (getLane copy i) index) i index num_cells max_vels

/-- One pass of the lane-change phase over lane `i` (lines 424-430): iterate
the live lane in index order and commit `change_lanes` whenever the live cell
is occupied and the decision holds. -/
def lcLanePass (copy : List (List Cell)) (num_cells : Nat) (max_vels : List Int)
    (i : Nat) (cells : List (List Cell)) : List (List Cell) :=
  (List.range (getLane cells i).length).foldl
    (fun live index =>
      let cell := nth (getLane live i) index
      if cell.state = 1 ∧ lcDecision copy num_cells max_vels i index cell then
        change_lanes live i index
      else live)
    cells

/-- The whole lane-change phase: lane 0's pass, then lane 1's pass, both
starting from the post-acceleration state, which (being a deep copy) is also
the frozen snapshot `copy` consulted by every decision. -/
def lcPhase (copy : List (List Cell)) (num_cells : Nat) (max_vels : List Int) :
    List (List Cell) :=
  lcLanePass copy num_cells max_vels 1 (lcLanePass copy num_cells max_vels 0 copy)

/-- The deceleration/randomization loop over one lane (lines 431-437): each
live occupied cell recomputes its forward gap in its current lane from the
snapshot `copy`, then decelerates and randomizes. -/
def decelLoop (copy : List (List Cell)) (num_cells : Nat) (p : ℚ) (draws : Nat → ℚ)
    (i : Nat) : List Nat → List (List Cell) → Nat → List (List Cell) × Nat
  | [], live, t => (live, t)
  | index :: rest, live, t =>
    let cell := nth (getLane live i) index
    if cell.state = 1 then
      let next_distance := distanceT copy (getLane copy i) index num_cells i i 1
      let v2 := decelerate cell.velocity (next_distance : Int)
      let v3 := randomize v2 (draws t) p
      decelLoop copy num_cells p draws i rest
        (live.set i ((getLane live i).set index ⟨cell.state, v3⟩)) (t + 1)
    else decelLoop copy num_cells p draws i rest live t

/-- `accelerate` applied across one lane (lines 418-422). -/
def accelLane (max_velocity : Int) (lane : List Cell) : List Cell :=
  lane.map fun c =>
    if c.state = 1 then { c with velocity := accelerate c.velocity max_velocity } else c

/-- The acceleration phase of the two-lane `update`. -/
def accelPhase (max_vels : List Int) (cells : List (List Cell)) : List (List Cell) :=
  (cells.set 0 (accelLane (max_vels.getD 0 0) (getLane cells 0))).set 1
    (accelLane (max_vels.getD 1 0) (getLane cells 1))

/-- The deceleration/randomization phase over both lanes (lines 431-437). -/
def decelPhase (copy : List (List Cell)) (num_cells : Nat) (p : ℚ) (draws : Nat → ℚ)
    (cells : List (List Cell)) (t : Nat) : List (List Cell) × Nat :=
  let st3 := decelLoop copy num_cells p draws 0
    (List.range (getLane cells 0).length) cells t
  decelLoop copy num_cells p draws 1
    (List.range (getLane st3.1 1).length) st3.1 st3.2

/-- The move phase over both lanes (lines 438-440). -/
def movePhase (num_cells : Nat) (cells : List (List Cell)) : List (List Cell) :=
  let m0 := cells.set 0 (moveT (getLane cells 0) num_cells)
  m0.set 1 (moveT (getLane m0 1) num_cells)

/-- `update` (two-lane version, lines 417-440): accelerate both lanes, deep
copy, lane-change phase, decelerate+randomize phase, then `move` per lane.
Returns the new road and the next position in the draw stream. -/
def updateT (cells : List (List Cell)) (num_cells : Nat) (max_vels : List Int)
    (p : ℚ) (draws : Nat → ℚ) (t : Nat) : List (List Cell) × Nat :=
  let copy := accelPhase max_vels cells
  let cells2 := lcPhase copy num_cells max_vels
  let st := decelPhase copy num_cells p draws cells2 t
  (movePhase num_cells st.1, st.2)

/-! ### Simulation drivers and the injected random source -/

/-- The values drawn from Python's `random` module during a single-lane run:
`sample` is the output of `random.sample` in `initilize`, `vels` the stream of
`random.randint(0, 5)` results, `draws` the stream of `random.random()`
results consumed by `randomize`.  Fixing the seed fixes all three. -/
structure RandSrcS where
  sample : List Nat
  vels : Nat → Int
  draws : Nat → ℚ

/-- `for index in indices: cells[index] = car with the next drawn velocity`. -/
def placeCars (base : List Cell) (indices : List Nat) (vels : Nat → Int) : List Cell :=
  indices.enum.foldl (fun cs ki => cs.set ki.2 ⟨1, vels ki.1⟩) base

/-- `initilize` (single-lane version, lines 44-51).  Python computes
`num_cars = int((occupancy_percent/100) * num_cells)` in floating point; here
the same truncation is taken in exact integer arithmetic, which agrees except
for float-rounding corner cases and is irrelevant to determinism. -/
def initilizeS (num_cells : Nat) (occupancy_percent : Int) (src : RandSrcS) : List Cell :=
  let num_cars := ((occupancy_percent * num_cells) / 100).toNat
  placeCars (List.replicate num_cells emptyCell) (src.sample.take num_cars) src.vels

/-- The loop of the single-lane `simulate` (lines 104-113): `num_time_steps`
updates, an impulse after the first update when `impulse > 0`, and one
recorded velocity row per step.  A `none` from `update` kills the run. -/
def runS (num_cells : Nat) (max_velocity : Int) (p : ℚ) (impulse : Int)
    (draws : Nat → ℚ) : Nat → Nat → List Cell → Nat → Option (List (List Int))
  | 0, _, _, _ => some []
  | steps + 1, time, cells, t =>
    match updateS cells num_cells max_velocity p draws t with
    | none => none
    | some (cells1, _, t1) =>
      let cells2 := if impulse > 0 ∧ time = 0 then add_impulse cells1 impulse else cells1
      match runS num_cells max_velocity p impulse draws steps (time + 1) cells2 t1 with
      | none => none
      | some rows => some ((cells2.map fun c => c.velocity) :: rows)

/-- `simulate` (single-lane version, lines 104-113). -/
def simulateS (max_velocity occupancy_percent : Int) (num_cells num_time_steps : Nat)
    (p : ℚ) (impulse : Int) (src : RandSrcS) : Option (List (List Int)) :=
  runS num_cells max_velocity p impulse src.draws num_time_steps 0
    (initilizeS num_cells occupancy_percent src) 0

/-- The values drawn from Python's `random` module during a two-lane run:
one `random.sample` output and one `random.randint(0, max_vel)` stream per
lane, plus the `random.random()` stream for `randomize`. -/
structure RandSrcT where
  sample0 : List Nat
  sample1 : List Nat
  vels0 : Nat → Int
  vels1 : Nat → Int
  draws : Nat → ℚ

/-- `initilize` (two-lane version, lines 346-358), with the same integer
modelling of the float `num_cars` truncation as `initilizeS`. -/
def initilizeT (num_cells : Nat) (occupancy_percents : List Int) (src : RandSrcT) :
    List (List Cell) :=
  let n0 := ((occupancy_percents.getD 0 0 * num_cells) / 100).toNat
  let n1 := ((occupancy_percents.getD 1 0 * num_cells) / 100).toNat
  [placeCars (List.replicate num_cells emptyCell) (src.sample0.take n0) src.vels0,
    placeCars (List.replicate num_cells emptyCell) (src.sample1.take n1) src.vels1]

/-- The loop of the two-lane `simulate` (lines 443-457), recording the two
per-lane velocity rows after each step (the three numpy arrays returned by the
source are projections of this sequence). -/
def runT (num_cells : Nat) (max_vels : List Int) (p : ℚ) (draws : Nat → ℚ) :
    Nat → List (List Cell) → Nat → List (List Int × List Int)
  | 0, _, _ => []
  | steps + 1, cells, t =>
    let st := updateT cells num_cells max_vels p draws t
    ((getLane st.1 0).map fun c => c.velocity, (getLane st.1 1).map fun c => c.velocity)
      :: runT num_cells max_vels p draws steps st.1 st.2

/-- `simulate` (two-lane version, lines 443-457); the loop runs
`num_time_steps + 1` times (`range(0, num_time_steps + 1)`). -/
def simulateT (max_vels occupancy_percents : List Int) (num_cells num_time_steps : Nat)
    (p : ℚ) (src : RandSrcT) : List (List Int × List Int) :=
  runT num_cells max_vels p src.draws (num_time_steps + 1)
    (initilizeT num_cells occupancy_percents src) 0

/-! ### Derived notions used by the claims -/

/-- Number of occupied cells in a lane. -/
def carCount (l : List Cell) : Nat := l.countP fun c => c.state == 1

/-- Number of occupied cells across a two-lane road. -/
def carCount2 (cells : List (List Cell)) : Nat :=
  carCount (getLane cells 0) + carCount (getLane cells 1)

/-- The data-model invariant for one cell of a lane with speed limit `mv`:
an occupied cell carries a velocity in `[0, mv]`, any other cell carries the
sentinel -1. -/
def goodCell (mv : Int) (c : Cell) : Prop :=
  (c.state = 1 → 0 ≤ c.velocity ∧ c.velocity ≤ mv) ∧ (c.state ≠ 1 → c.velocity = -1)

/-- The data-model invariant for a whole lane. -/
def goodLane (mv : Int) (l : List Cell) : Prop := ∀ c ∈ l, goodCell mv c

instance (mv : Int) (c : Cell) : Decidable (goodCell mv c) := by
  unfold goodCell; infer_instance

instance (mv : Int) (l : List Cell) : Decidable (goodLane mv l) := by
  unfold goodLane; exact List.decidableBAll _ l

/-- The spec's reading of the lane-change predicate (section 4.3 of the spec,
and claim C3): both guards, and the four safety conditions over the same
snapshot, with gaps computed by the distance query in the corresponding lane
and direction.  This definition follows the specification text; the theorem
`can_change_lanes_iff_spec` compares it with the source's
`can_change_lanes`. -/
def can_change_lanes_spec (cells : List (List Cell)) (cell : Cell) (i index num_cells : Nat)
    (max_vels : List Int) : Prop :=
  let curr_lane := getLane cells i
  let other_lane := getLane cells ((i + 1) % 2)
  let gap_ahead_same := distanceT cells curr_lane index num_cells i i 1
  let gap_behind_same := distanceT cells curr_lane index num_cells i i (-1)
  let gap_ahead_other := distanceT cells curr_lane index num_cells i ((i + 1) % 2) 1
  let gap_behind_other := distanceT cells curr_lane index num_cells i ((i + 1) % 2) (-1)
  (cell.velocity ≤ max_vels.getD ((i + 1) % 2) 0 ∧ (nth other_lane index).state = 0) ∧
  (cell.velocity <
    (nth curr_lane ((index + gap_ahead_same + 1) % num_cells)).velocity - 1
      + (gap_ahead_same : Int) + 1) ∧
  ((gap_ahead_other : Int) ≥ cell.velocity) ∧
  ((nth curr_lane (idx ((index : Int) - ((gap_behind_same : Int) + 1)) num_cells)).velocity
    - ((gap_behind_same : Int) + 1) < cell.velocity - 1) ∧
  ((nth other_lane (idx ((index : Int) - ((gap_behind_other : Int) + 1)) num_cells)).velocity
    - ((gap_behind_other : Int) + 1) < cell.velocity - 1)

/-- The lane-change commit made at `(i, k)` when the live lane agrees with the
snapshot there: the snapshot records an occupied cell and the decision holds
on the snapshot.  A pure function of the snapshot alone. -/
def lcCommit (copy : List (List Cell)) (num_cells : Nat) (max_vels : List Int)
    (i k : Nat) : Bool :=
  ((nth (getLane copy i) k).state == 1)
    && lcDecision copy num_cells max_vels i k (nth (getLane copy i) k)

/-- The order-independent description of the lane-change phase: cell `(i, k)`
is cleared when the vehicle recorded there by the snapshot commits a change,
receives the other lane's snapshot vehicle when that one commits, and is
otherwise untouched. -/
def lcPure (copy : List (List Cell)) (num_cells : Nat) (max_vels : List Int) :
    List (List Cell) :=
  [(List.range (getLane copy 0).length).map (fun k =>
      if lcCommit copy num_cells max_vels 0 k then emptyCell
      else if lcCommit copy num_cells max_vels 1 k then ⟨1, (nth (getLane copy 1) k).velocity⟩
      else nth (getLane copy 0) k),
    (List.range (getLane copy 1).length).map (fun k =>
      if lcCommit copy num_cells max_vels 1 k then emptyCell
      else if lcCommit copy num_cells max_vels 0 k then ⟨1, (nth (getLane copy 0) k).velocity⟩
      else nth (getLane copy 1) k)]

/-! ### Concrete states used by the counterexamples and witnesses -/

/-- Shorthand for an occupied cell. -/
def car (v : Int) : Cell := ⟨1, v⟩

/-- Left lane of the conservation counterexample: empty. -/
def consLane0 : List Cell := List.replicate 12 emptyCell

/-- Right lane of the conservation counterexample: five cars. -/
def consLane1 : List Cell :=
  [car 3, car 4, car 0, emptyCell, car 0, car 1,
    emptyCell, emptyCell, emptyCell, emptyCell, emptyCell, emptyCell]

/-- Draw stream for the conservation counterexample: only the second
`random.random()` call (the dally decision of the car that has just changed
into lane 0 at index 4) falls below `p = 1/2`. -/
def consDraws : Nat → ℚ := fun t => if t = 1 then mkRat 3 10 else mkRat 9 10

/-- Single lane in which the cars at 0 (velocity 2) and 1 (velocity 1) both
move to the empty cell 2: a destination collision at a cell that is neither
vehicle's source. -/
def collideLane : List Cell := [car 2, car 1, emptyCell, emptyCell]

/-- A two-lane snapshot, taken from the notebook's own condition-1 fixture, in
which the vehicle at `(0, 0)` qualifies for a lane change. -/
def lcDemo : List (List Cell) :=
  [[car 2, car 3, emptyCell, emptyCell, emptyCell], List.replicate 5 emptyCell]

/-! ## Helper lemmas -/

theorem scan1_eq_none (hit : Nat → Bool) :
    ∀ fuel start, scan1 hit start fuel = none ↔
      ∀ i, start ≤ i → i < start + fuel → hit i = false := by
  intro fuel
  induction fuel with
  | zero =>
    intro start
    constructor
    · intro _ i h1 h2; omega
    · intro _; rfl
  | succ f ih =>
    intro start
    simp only [scan1]
    by_cases h : hit start
    · simp only [if_pos h]
      constructor
      · intro hc; cases hc
      · intro hall
        have := hall start le_rfl (by omega)
        rw [h] at this; cases this
    · have hfalse : hit start = false := by revert h; cases hit start <;> simp
      simp only [if_neg h]
      rw [ih (start + 1)]
      constructor
      · intro hall i h1 h2
        rcases Nat.eq_or_lt_of_le h1 with rfl | hlt
        · exact hfalse
        · exact hall i (by omega) (by omega)
      · intro hall i h1 h2
        exact hall i (by omega) (by omega)

theorem scan1_eq_some (hit : Nat → Bool) :
    ∀ fuel start j, scan1 hit start fuel = some j ↔
      start ≤ j ∧ j < start + fuel ∧ hit j = true ∧
        ∀ i, start ≤ i → i < j → hit i = false := by
  intro fuel
  induction fuel with
  | zero =>
    intro start j
    constructor
    · intro hc; cases hc
    · rintro ⟨h1, h2, -, -⟩; omega
  | succ f ih =>
    intro start j
    simp only [scan1]
    by_cases h : hit start
    · simp only [if_pos h]
      constructor
      · intro hs
        cases hs
        exact ⟨le_rfl, by omega, h, fun i h1 h2 => by omega⟩
      · rintro ⟨h1, h2, h3, h4⟩
        rcases Nat.eq_or_lt_of_le h1 with rfl | hlt
        · rfl
        · have := h4 start le_rfl hlt
          rw [h] at this; cases this
    · have hfalse : hit start = false := by revert h; cases hit start <;> simp
      simp only [if_neg h]
      rw [ih (start + 1) j]
      constructor
      · rintro ⟨h1, h2, h3, h4⟩
        refine ⟨by omega, by omega, h3, fun i hi1 hi2 => ?_⟩
        rcases Nat.eq_or_lt_of_le hi1 with rfl | hlt
        · exact hfalse
        · exact h4 i (by omega) hi2
      · rintro ⟨h1, h2, h3, h4⟩
        have hj : start ≠ j := by
          rintro rfl
          rw [h3] at hfalse; cases hfalse
        refine ⟨by omega, by omega, h3, fun i hi1 hi2 => h4 i (by omega) hi2⟩

/-- The single-lane `distance` falls through when every scanned cell is
unoccupied. -/
theorem distanceS_none (cells : List Cell) (index num_cells : Nat)
    (h : ∀ i, 1 ≤ i → i < cells.length →
      (nth cells ((i + index) % num_cells)).state ≠ 1) :
    distanceS cells index num_cells = none := by
  unfold distanceS
  have hs : scan1 (fun i => (nth cells ((i + index) % num_cells)).state == 1) 1
      (cells.length - 1) = none := by
    rw [scan1_eq_none]
    intro i h1 h2
    simp only [beq_eq_false_iff_ne, ne_eq]
    exact h i h1 (by omega)
  rw [hs]; rfl

/-- The single-lane `distance` returns the first-hit offset minus one. -/
theorem distanceS_some (cells : List Cell) (index num_cells : Nat) (i₀ : Nat)
    (h1 : 1 ≤ i₀) (h2 : i₀ < cells.length)
    (hhit : (nth cells ((i₀ + index) % num_cells)).state = 1)
    (hbefore : ∀ i, 1 ≤ i → i < i₀ →
      (nth cells ((i + index) % num_cells)).state ≠ 1) :
    distanceS cells index num_cells = some (i₀ - 1) := by
  unfold distanceS
  have hs : scan1 (fun i => (nth cells ((i + index) % num_cells)).state == 1) 1
      (cells.length - 1) = some i₀ := by
    rw [scan1_eq_some]
    refine ⟨h1, by omega, by simpa using hhit, fun i hi1 hi2 => ?_⟩
    simp only [beq_eq_false_iff_ne, ne_eq]
    exact hbefore i hi1 hi2
  rw [hs]; rfl

/-- The two-lane `distance`, same-lane branch, returns `num_cells` when every
scanned cell is unoccupied. -/
theorem distanceT_none_same (cells : List (List Cell)) (curr_cells : List Cell)
    (index num_cells lane : Nat) (direction : Int)
    (h : ∀ i, 1 ≤ i → i < curr_cells.length →
      (nth curr_cells (idx (direction * i + index) num_cells)).state ≠ 1) :
    distanceT cells curr_cells index num_cells lane lane direction = num_cells := by
  unfold distanceT
  rw [if_pos rfl]
  have hs : scan1 (fun i =>
      (nth curr_cells (idx (direction * i + index) num_cells)).state == 1) 1
      (curr_cells.length - 1) = none := by
    rw [scan1_eq_none]
    intro i h1 h2
    simp only [beq_eq_false_iff_ne, ne_eq]
    exact h i h1 (by omega)
  rw [hs]

/-- The two-lane `distance`, other-lane branch, returns `num_cells` when every
scanned cell of the intended lane is unoccupied. -/
theorem distanceT_none_other (cells : List (List Cell)) (curr_cells : List Cell)
    (index num_cells curr_lane intended_lane : Nat) (direction : Int)
    (hne : curr_lane ≠ intended_lane)
    (h : ∀ i, 1 ≤ i → i < curr_cells.length →
      (nth (getLane cells intended_lane) (idx (direction * i + index) num_cells)).state ≠ 1) :
    distanceT cells curr_cells index num_cells curr_lane intended_lane direction = num_cells := by
  unfold distanceT
  rw [if_neg hne]
  have hs : scan1 (fun i =>
      (nth (getLane cells intended_lane) (idx (direction * i + index) num_cells)).state == 1) 1
      (curr_cells.length - 1) = none := by
    rw [scan1_eq_none]
    intro i h1 h2
    simp only [beq_eq_false_iff_ne, ne_eq]
    exact h i h1 (by omega)
  rw [hs]

/-- The two-lane `distance`, same-lane branch, returns the first-hit offset
minus one. -/
theorem distanceT_some_same (cells : List (List Cell)) (curr_cells : List Cell)
    (index num_cells lane : Nat) (direction : Int) (i₀ : Nat)
    (h1 : 1 ≤ i₀) (h2 : i₀ < curr_cells.length)
    (hhit : (nth curr_cells (idx (direction * i₀ + index) num_cells)).state = 1)
    (hbefore : ∀ i, 1 ≤ i → i < i₀ →
      (nth curr_cells (idx (direction * i + index) num_cells)).state ≠ 1) :
    distanceT cells curr_cells index num_cells lane lane direction = i₀ - 1 := by
  unfold distanceT
  rw [if_pos rfl]
  have hs : scan1 (fun i =>
      (nth curr_cells (idx (direction * i + index) num_cells)).state == 1) 1
      (curr_cells.length - 1) = some i₀ := by
    rw [scan1_eq_some]
    refine ⟨h1, by omega, by simpa using hhit, fun i hi1 hi2 => ?_⟩
    simp only [beq_eq_false_iff_ne, ne_eq]
    exact hbefore i hi1 hi2
  rw [hs]

/-- The two-lane `distance`, other-lane branch, returns the first-hit offset
minus one. -/
theorem distanceT_some_other (cells : List (List Cell)) (curr_cells : List Cell)
    (index num_cells curr_lane intended_lane : Nat) (direction : Int) (i₀ : Nat)
    (hne : curr_lane ≠ intended_lane)
    (h1 : 1 ≤ i₀) (h2 : i₀ < curr_cells.length)
    (hhit : (nth (getLane cells intended_lane) (idx (direction * i₀ + index) num_cells)).state = 1)
    (hbefore : ∀ i, 1 ≤ i → i < i₀ →
      (nth (getLane cells intended_lane) (idx (direction * i + index) num_cells)).state ≠ 1) :
    distanceT cells curr_cells index num_cells curr_lane intended_lane direction = i₀ - 1 := by
  unfold distanceT
  rw [if_neg hne]
  have hs : scan1 (fun i =>
      (nth (getLane cells intended_lane) (idx (direction * i + index) num_cells)).state == 1) 1
      (curr_cells.length - 1) = some i₀ := by
    rw [scan1_eq_some]
    refine ⟨h1, by omega, by simpa using hhit, fun i hi1 hi2 => ?_⟩
    simp only [beq_eq_false_iff_ne, ne_eq]
    exact hbefore i hi1 hi2
  rw [hs]

theorem nth_set_self : ∀ (l : List Cell) (k : Nat) (c : Cell), k < l.length →
    nth (l.set k c) k = c := by
  intro l
  induction l with
  | nil => intro k c h; simp at h
  | cons a t ih =>
    intro k c h
    cases k with
    | zero => rfl
    | succ m => exact ih m c (by simpa using h)

theorem nth_set_ne : ∀ (l : List Cell) (k j : Nat) (c : Cell), k ≠ j →
    nth (l.set k c) j = nth l j := by
  intro l
  induction l with
  | nil => intro k j c _; rfl
  | cons a t ih =>
    intro k j c h
    cases k with
    | zero =>
      cases j with
      | zero => exact absurd rfl h
      | succ jm => rfl
    | succ km =>
      cases j with
      | zero => rfl
      | succ jm => exact ih km jm c (by omega)

theorem if_lt_succ_ne {α : Sort _} (m k : Nat) (C : Prop) [Decidable C] (x y : α)
    (hne : k ≠ m) :
    (if k < m + 1 ∧ C then x else y) = (if k < m ∧ C then x else y) := by
  by_cases h1 : k < m ∧ C
  · rw [if_pos h1, if_pos ⟨by omega, h1.2⟩]
  · rw [if_neg h1, if_neg (fun h2 => h1 ⟨by omega, h2.2⟩)]

/-- A vehicle recorded by the snapshot in lane 0 blocks any lane-change
decision at the laterally adjacent position of lane 1: the guard reads the
snapshot's lane 0, where the cell is occupied. -/
theorem can_change_lanes_lane1_false (cells : List (List Cell)) (cell : Cell)
    (index num_cells : Nat) (max_vels : List Int)
    (h : (nth (getLane cells 0) index).state = 1) :
    can_change_lanes cells cell 1 index num_cells max_vels = false := by
  have hg : ¬ (cell.velocity ≤ max_vels.getD ((1 + 1) % 2) 0 ∧
      (nth (getLane cells ((1 + 1) % 2)) index).state = 0) := by
    rintro ⟨-, h0⟩
    have h0' : (nth (getLane cells 0) index).state = 0 := h0
    rw [h] at h0'
    exact absurd h0' (by decide)
  simp only [can_change_lanes, if_neg hg]

theorem lcDecision_lane1_false (copy : List (List Cell)) (num_cells : Nat)
    (mv : List Int) (k : Nat) (c : Cell)
    (h : (nth (getLane copy 0) k).state = 1) :
    lcDecision copy num_cells mv 1 k c = false := by
  unfold lcDecision
  rw [can_change_lanes_lane1_false copy _ k num_cells mv h, Bool.and_false]

theorem lcCommit_iff (copy : List (List Cell)) (num_cells : Nat) (mv : List Int)
    (i k : Nat) (c : Cell) (hc : c = nth (getLane copy i) k) :
    (c.state = 1 ∧ lcDecision copy num_cells mv i k c = true) ↔
      lcCommit copy num_cells mv i k = true := by
  subst hc
  unfold lcCommit
  rw [Bool.and_eq_true, beq_iff_eq]

theorem lcCommit_state (copy : List (List Cell)) (num_cells : Nat) (mv : List Int)
    (i k : Nat) (h : lcCommit copy num_cells mv i k = true) :
    (nth (getLane copy i) k).state = 1 := by
  unfold lcCommit at h
  exact beq_iff_eq.mp ((Bool.and_eq_true _ _).mp h).1

/-- A vehicle cannot commit out of lane 0 and out of lane 1 at the same index
of the same snapshot: the lane-1 guard requires the snapshot's lane-0 cell to
be empty while the lane-0 commit requires it to be occupied. -/
theorem lcCommit_not_both (copy : List (List Cell)) (num_cells : Nat) (mv : List Int)
    (k : Nat) (h0 : lcCommit copy num_cells mv 0 k = true) :
    lcCommit copy num_cells mv 1 k = false := by
  unfold lcCommit
  rw [lcDecision_lane1_false copy num_cells mv k _ (lcCommit_state copy num_cells mv 0 k h0)]
  exact Bool.and_false _

theorem change_lanes_zero (a b : List Cell) (k : Nat) :
    change_lanes [a, b] 0 k = [a.set k emptyCell, b.set k ⟨1, (nth a k).velocity⟩] := rfl

theorem change_lanes_one (a b : List Cell) (k : Nat) :
    change_lanes [a, b] 1 k = [a.set k ⟨1, (nth b k).velocity⟩, b.set k emptyCell] := rfl

theorem lcLanePass_eq_foldl (copy cells : List (List Cell)) (num_cells : Nat)
    (mv : List Int) (i : Nat) :
    lcLanePass copy num_cells mv i cells = (List.range (getLane cells i).length).foldl
      (fun live index =>
        let cell := nth (getLane live i) index
        if cell.state = 1 ∧ lcDecision copy num_cells mv i index cell then
          change_lanes live i index
        else live) cells := rfl

/-- Characterization of lane 0's pass of the lane-change phase: after the
first `m` indices, exactly the snapshot-committed vehicles among them have
been moved across, independent of order. -/
theorem lcPass0_prefix (l0 l1 : List Cell) (num_cells : Nat) (mv : List Int)
    (hlen : l1.length = l0.length) :
    ∀ m, m ≤ l0.length →
      ∃ a b,
        (List.range m).foldl
          (fun live index =>
            let cell := nth (getLane live 0) index
            if cell.state = 1 ∧ lcDecision [l0, l1] num_cells mv 0 index cell then
              change_lanes live 0 index
            else live) [l0, l1] = [a, b] ∧
        a.length = l0.length ∧ b.length = l1.length ∧
        (∀ k, nth a k =
          if k < m ∧ lcCommit [l0, l1] num_cells mv 0 k then emptyCell else nth l0 k) ∧
        (∀ k, nth b k =
          if k < m ∧ lcCommit [l0, l1] num_cells mv 0 k then ⟨1, (nth l0 k).velocity⟩
          else nth l1 k) := by
  intro m
  induction m with
  | zero =>
    intro _
    exact ⟨l0, l1, rfl, rfl, rfl,
      fun k => by rw [if_neg (by rintro ⟨hk, -⟩; omega)],
      fun k => by rw [if_neg (by rintro ⟨hk, -⟩; omega)]⟩
  | succ m ih =>
    intro hm
    obtain ⟨a, b, hfold, hla, hlb, ha, hb⟩ := ih (by omega)
    rw [List.range_succ, List.foldl_append, hfold]
    simp only [List.foldl_cons, List.foldl_nil]
    have hcellm : nth a m = nth l0 m := by
      rw [ha m, if_neg (by rintro ⟨hk, -⟩; omega)]
    by_cases hcommit : lcCommit [l0, l1] num_cells mv 0 m = true
    · have hcond : (nth (getLane [a, b] 0) m).state = 1 ∧
          lcDecision [l0, l1] num_cells mv 0 m (nth (getLane [a, b] 0) m) = true := by
        show (nth a m).state = 1 ∧ lcDecision [l0, l1] num_cells mv 0 m (nth a m) = true
        rw [hcellm]
        exact (lcCommit_iff [l0, l1] num_cells mv 0 m (nth l0 m) rfl).mpr hcommit
      refine ⟨a.set m emptyCell, b.set m ⟨1, (nth l0 m).velocity⟩, ?_, ?_, ?_, ?_, ?_⟩
      · show (if (nth (getLane [a, b] 0) m).state = 1 ∧
            lcDecision [l0, l1] num_cells mv 0 m (nth (getLane [a, b] 0) m) = true then
            change_lanes [a, b] 0 m else [a, b]) = _
        rw [if_pos hcond, change_lanes_zero, hcellm]
      · rw [List.length_set]; exact hla
      · rw [List.length_set]; exact hlb
      · intro k
        by_cases hk : k = m
        · subst hk
          rw [nth_set_self a k emptyCell (by omega), if_pos ⟨by omega, hcommit⟩]
        · rw [nth_set_ne a m k emptyCell (fun hh => hk hh.symm),
            if_lt_succ_ne m k _ _ _ hk]
          exact ha k
      · intro k
        by_cases hk : k = m
        · subst hk
          rw [nth_set_self b k _ (by omega), if_pos ⟨by omega, hcommit⟩]
        · rw [nth_set_ne b m k _ (fun hh => hk hh.symm), if_lt_succ_ne m k _ _ _ hk]
          exact hb k
    · have hcond : ¬ ((nth (getLane [a, b] 0) m).state = 1 ∧
          lcDecision [l0, l1] num_cells mv 0 m (nth (getLane [a, b] 0) m) = true) := by
        show ¬ ((nth a m).state = 1 ∧ lcDecision [l0, l1] num_cells mv 0 m (nth a m) = true)
        rw [hcellm]
        intro hc
        exact hcommit ((lcCommit_iff [l0, l1] num_cells mv 0 m (nth l0 m) rfl).mp hc)
      refine ⟨a, b, ?_, hla, hlb, fun k => ?_, fun k => ?_⟩
      · show (if (nth (getLane [a, b] 0) m).state = 1 ∧
            lcDecision [l0, l1] num_cells mv 0 m (nth (getLane [a, b] 0) m) = true then
            change_lanes [a, b] 0 m else [a, b]) = _
        rw [if_neg hcond]
      · by_cases hk : k = m
        · subst hk
          rw [ha k, if_neg (by rintro ⟨hlt, -⟩; omega),
            if_neg (by rintro ⟨-, hcc⟩; exact hcommit hcc)]
        · rw [if_lt_succ_ne m k _ _ _ hk]; exact ha k
      · by_cases hk : k = m
        · subst hk
          rw [hb k, if_neg (by rintro ⟨hlt, -⟩; omega),
            if_neg (by rintro ⟨-, hcc⟩; exact hcommit hcc)]
        · rw [if_lt_succ_ne m k _ _ _ hk]; exact hb k

/-- Characterization of lane 1's pass of the lane-change phase, started from
lane 0's result: vehicles that changed into lane 1 during the same step are
never granted a second change, and the snapshot-committed lane-1 vehicles move
across, independent of order. -/
theorem lcPass1_prefix (l0 l1 A B : List Cell) (num_cells : Nat) (mv : List Int)
    (hlen : l1.length = l0.length) (hlA : A.length = l0.length)
    (hlB : B.length = l1.length)
    (_hA : ∀ k, nth A k =
      if k < l0.length ∧ lcCommit [l0, l1] num_cells mv 0 k then emptyCell else nth l0 k)
    (hB : ∀ k, nth B k =
      if k < l0.length ∧ lcCommit [l0, l1] num_cells mv 0 k then ⟨1, (nth l0 k).velocity⟩
      else nth l1 k) :
    ∀ m, m ≤ l0.length →
      ∃ a b,
        (List.range m).foldl
          (fun live index =>
            let cell := nth (getLane live 1) index
            if cell.state = 1 ∧ lcDecision [l0, l1] num_cells mv 1 index cell then
              change_lanes live 1 index
            else live) [A, B] = [a, b] ∧
        a.length = l0.length ∧ b.length = l1.length ∧
        (∀ k, nth a k =
          if k < m ∧ lcCommit [l0, l1] num_cells mv 1 k then ⟨1, (nth l1 k).velocity⟩
          else nth A k) ∧
        (∀ k, nth b k =
          if k < m ∧ lcCommit [l0, l1] num_cells mv 1 k then emptyCell else nth B k) := by
  intro m
  induction m with
  | zero =>
    intro _
    exact ⟨A, B, rfl, hlA, hlB,
      fun k => by rw [if_neg (by rintro ⟨hk, -⟩; omega)],
      fun k => by rw [if_neg (by rintro ⟨hk, -⟩; omega)]⟩
  | succ m ih =>
    intro hm
    obtain ⟨a, b, hfold, hla, hlb, ha, hb⟩ := ih (by omega)
    rw [List.range_succ, List.foldl_append, hfold]
    simp only [List.foldl_cons, List.foldl_nil]
    have hcellm : nth b m = nth B m := by
      rw [hb m, if_neg (by rintro ⟨hk, -⟩; omega)]
    by_cases hc0 : lcCommit [l0, l1] num_cells mv 0 m = true
    · -- the cell of lane 1 holds the vehicle that changed in from lane 0 (or
      -- nothing); the decision is false because the snapshot's lane 0 is
      -- occupied, so no second change happens
      have hstate : (nth (getLane [l0, l1] 0) m).state = 1 :=
        lcCommit_state [l0, l1] num_cells mv 0 m hc0
      have hcond : ¬ ((nth (getLane [a, b] 1) m).state = 1 ∧
          lcDecision [l0, l1] num_cells mv 1 m (nth (getLane [a, b] 1) m) = true) := by
        rintro ⟨-, hdec⟩
        rw [lcDecision_lane1_false [l0, l1] num_cells mv m _ hstate] at hdec
        cases hdec
      have hc1 : lcCommit [l0, l1] num_cells mv 1 m = false :=
        lcCommit_not_both [l0, l1] num_cells mv m hc0
      refine ⟨a, b, ?_, hla, hlb, fun k => ?_, fun k => ?_⟩
      · show (if (nth (getLane [a, b] 1) m).state = 1 ∧
            lcDecision [l0, l1] num_cells mv 1 m (nth (getLane [a, b] 1) m) = true then
            change_lanes [a, b] 1 m else [a, b]) = _
        rw [if_neg hcond]
      · by_cases hk : k = m
        · subst hk
          rw [ha k, if_neg (by rintro ⟨hlt, -⟩; omega),
            if_neg (by rintro ⟨-, hcc⟩; rw [hc1] at hcc; cases hcc)]
        · rw [if_lt_succ_ne m k _ _ _ hk]; exact ha k
      · by_cases hk : k = m
        · subst hk
          rw [hb k, if_neg (by rintro ⟨hlt, -⟩; omega),
            if_neg (by rintro ⟨-, hcc⟩; rw [hc1] at hcc; cases hcc)]
        · rw [if_lt_succ_ne m k _ _ _ hk]; exact hb k
    · have hBm : nth B m = nth l1 m := by
        rw [hB m, if_neg (by rintro ⟨-, hcc⟩; exact hc0 hcc)]
      by_cases hc1 : lcCommit [l0, l1] num_cells mv 1 m = true
      · have hcond : (nth (getLane [a, b] 1) m).state = 1 ∧
            lcDecision [l0, l1] num_cells mv 1 m (nth (getLane [a, b] 1) m) = true := by
          show (nth b m).state = 1 ∧ lcDecision [l0, l1] num_cells mv 1 m (nth b m) = true
          rw [hcellm, hBm]
          exact (lcCommit_iff [l0, l1] num_cells mv 1 m (nth l1 m) rfl).mpr hc1
        refine ⟨a.set m ⟨1, (nth l1 m).velocity⟩, b.set m emptyCell, ?_, ?_, ?_, ?_, ?_⟩
        · show (if (nth (getLane [a, b] 1) m).state = 1 ∧
              lcDecision [l0, l1] num_cells mv 1 m (nth (getLane [a, b] 1) m) = true then
              change_lanes [a, b] 1 m else [a, b]) = _
          rw [if_pos hcond, change_lanes_one, hcellm, hBm]
        · rw [List.length_set]; exact hla
        · rw [List.length_set]; exact hlb
        · intro k
          by_cases hk : k = m
          · subst hk
            rw [nth_set_self a k _ (by omega), if_pos ⟨by omega, hc1⟩]
          · rw [nth_set_ne a m k _ (fun hh => hk hh.symm), if_lt_succ_ne m k _ _ _ hk]
            exact ha k
        · intro k
          by_cases hk : k = m
          · subst hk
            rw [nth_set_self b k _ (by omega), if_pos ⟨by omega, hc1⟩]
          · rw [nth_set_ne b m k _ (fun hh => hk hh.symm), if_lt_succ_ne m k _ _ _ hk]
            exact hb k
      · have hcond : ¬ ((nth (getLane [a, b] 1) m).state = 1 ∧
            lcDecision [l0, l1] num_cells mv 1 m (nth (getLane [a, b] 1) m) = true) := by
          show ¬ ((nth b m).state = 1 ∧
            lcDecision [l0, l1] num_cells mv 1 m (nth b m) = true)
          rw [hcellm, hBm]
          intro hc
          exact hc1 ((lcCommit_iff [l0, l1] num_cells mv 1 m (nth l1 m) rfl).mp hc)
        refine ⟨a, b, ?_, hla, hlb, fun k => ?_, fun k => ?_⟩
        · show (if (nth (getLane [a, b] 1) m).state = 1 ∧
              lcDecision [l0, l1] num_cells mv 1 m (nth (getLane [a, b] 1) m) = true then
              change_lanes [a, b] 1 m else [a, b]) = _
          rw [if_neg hcond]
        · by_cases hk : k = m
          · subst hk
            rw [ha k, if_neg (by rintro ⟨hlt, -⟩; omega),
              if_neg (by rintro ⟨-, hcc⟩; exact hc1 hcc)]
          · rw [if_lt_succ_ne m k _ _ _ hk]; exact ha k
        · by_cases hk : k = m
          · subst hk
            rw [hb k, if_neg (by rintro ⟨hlt, -⟩; omega),
              if_neg (by rintro ⟨-, hcc⟩; exact hc1 hcc)]
          · rw [if_lt_succ_ne m k _ _ _ hk]; exact hb k

/-- The lane-change phase, run sequentially by the two-lane `update`, equals
the order-independent pointwise commit map `lcPure` on the snapshot. -/
theorem lcPhase_eq_lcPure (l0 l1 : List Cell) (n : Nat) (mv : List Int)
    (hlen : l1.length = l0.length) :
    lcPhase [l0, l1] n mv = lcPure [l0, l1] n mv := by
  obtain ⟨A, B, hfold0, hlA, hlB, hA, hB⟩ := lcPass0_prefix l0 l1 n mv hlen l0.length le_rfl
  obtain ⟨a, b, hfold1, hla, hlb, ha, hb⟩ :=
    lcPass1_prefix l0 l1 A B n mv hlen hlA hlB hA hB l0.length le_rfl
  unfold lcPhase
  rw [lcLanePass_eq_foldl [l0, l1] [l0, l1] n mv 0,
    show getLane [l0, l1] 0 = l0 from rfl, hfold0,
    lcLanePass_eq_foldl [l0, l1] [A, B] n mv 1,
    show getLane [A, B] 1 = B from rfl,
    show B.length = l0.length from hlB.trans hlen, hfold1]
  unfold lcPure
  rw [show getLane [l0, l1] 0 = l0 from rfl, show getLane [l0, l1] 1 = l1 from rfl]
  congr 1
  · apply List.ext_getElem
    · rw [hla, List.length_map, List.length_range]
    · intro k h1 h2
      simp only [List.getElem_map, List.getElem_range]
      have hbound : k < l0.length := by rw [hla] at h1; exact h1
      have hak : a[k] = nth a k := (List.getD_eq_getElem a emptyCell h1).symm
      rw [hak]
      by_cases c0 : lcCommit [l0, l1] n mv 0 k = true
      · have c1 := lcCommit_not_both [l0, l1] n mv k c0
        rw [ha k, if_neg (by rintro ⟨-, hcc⟩; rw [c1] at hcc; cases hcc),
          hA k, if_pos ⟨hbound, c0⟩, if_pos c0]
      · by_cases c1 : lcCommit [l0, l1] n mv 1 k = true
        · rw [ha k, if_pos ⟨hbound, c1⟩, if_neg c0, if_pos c1]
        · rw [ha k, if_neg (fun h => c1 h.2), hA k, if_neg (fun h => c0 h.2),
            if_neg c0, if_neg c1]
  congr 1
  apply List.ext_getElem
  · rw [hlb, List.length_map, List.length_range]
  · intro k h1 h2
    simp only [List.getElem_map, List.getElem_range]
    have hbound : k < l0.length := by rw [hlb, hlen] at h1; exact h1
    have hbk : b[k] = nth b k := (List.getD_eq_getElem b emptyCell h1).symm
    rw [hbk]
    by_cases c1 : lcCommit [l0, l1] n mv 1 k = true
    · rw [hb k, if_pos ⟨hbound, c1⟩, if_pos c1]
    · by_cases c0 : lcCommit [l0, l1] n mv 0 k = true
      · rw [hb k, if_neg (fun h => c1 h.2), hB k, if_pos ⟨hbound, c0⟩,
          if_neg c1, if_pos c0]
      · rw [hb k, if_neg (fun h => c1 h.2), hB k, if_neg (fun h => c0 h.2),
          if_neg c1, if_neg c0]

theorem goodCell_empty (mv : Int) : goodCell mv emptyCell :=
  ⟨fun h => absurd h (by decide), fun _ => rfl⟩

theorem goodCell_car (mv v : Int) (h0 : 0 ≤ v) (h1 : v ≤ mv) : goodCell mv ⟨1, v⟩ :=
  ⟨fun _ => ⟨h0, h1⟩, fun h => absurd rfl h⟩

theorem goodCell_nth (mv : Int) (l : List Cell) (hl : goodLane mv l) (k : Nat) :
    goodCell mv (nth l k) := by
  by_cases h : k < l.length
  · have he : nth l k = l[k] := List.getD_eq_getElem l emptyCell h
    rw [he]
    exact hl _ (List.getElem_mem h)
  · have he : nth l k = emptyCell := List.getD_eq_default l emptyCell (by omega)
    rw [he]
    exact goodCell_empty mv

theorem goodLane_set (mv : Int) (l : List Cell) (k : Nat) (c : Cell)
    (hl : goodLane mv l) (hc : goodCell mv c) : goodLane mv (l.set k c) := by
  intro x hx
  rcases List.mem_or_eq_of_mem_set hx with h | h
  · exact hl x h
  · rw [h]; exact hc

theorem accelerate_bounds (v mvel : Int) (h0 : 0 ≤ v) (h1 : v ≤ mvel) :
    0 ≤ accelerate v mvel ∧ accelerate v mvel ≤ mvel := by
  unfold accelerate
  rw [min_def]
  split_ifs <;> omega

theorem decelerate_bounds (v mvel : Int) (d : Nat) (h0 : 0 ≤ v) (h1 : v ≤ mvel) :
    0 ≤ decelerate v (d : Int) ∧ decelerate v (d : Int) ≤ mvel := by
  unfold decelerate
  split_ifs with h <;> omega

theorem randomize_bounds (v mvel : Int) (draw p : ℚ) (h0 : 0 ≤ v) (h1 : v ≤ mvel) :
    0 ≤ randomize v draw p ∧ randomize v draw p ≤ mvel := by
  unfold randomize
  split_ifs with h
  · rw [max_def]; split_ifs <;> omega
  · exact ⟨h0, h1⟩

theorem foldl_preserves {α : Type _} {β : Type _} (P : α → Prop) (f : α → β → α)
    (hstep : ∀ a b, P a → P (f a b)) :
    ∀ (l : List β) (a : α), P a → P (List.foldl f a l) := by
  intro l
  induction l with
  | nil => exact fun a h => h
  | cons x xs ih => exact fun a h => ih (f a x) (hstep a x h)

theorem accelLane_good (mvel : Int) (l : List Cell) (hg : goodLane mvel l) :
    goodLane mvel (accelLane mvel l) := by
  intro c hc
  unfold accelLane at hc
  obtain ⟨x, hx, rfl⟩ := List.mem_map.mp hc
  by_cases hs : x.state = 1
  · rw [if_pos hs]
    refine ⟨fun _ => ?_, fun hne => absurd hs hne⟩
    obtain ⟨h0, h1⟩ := (hg x hx).1 hs
    exact accelerate_bounds x.velocity mvel h0 h1
  · rw [if_neg hs]
    exact hg x hx

theorem moveS_good (mvel : Int) (cells : List Cell) (n : Nat)
    (hg : goodLane mvel cells) : goodLane mvel (moveS cells n).1 := by
  unfold moveS
  refine foldl_preserves (fun st : List Cell × List Nat => goodLane mvel st.1)
    _ ?_ (List.range cells.length) (cells, []) hg
  intro st index hst
  dsimp only
  by_cases hocc : (nth cells index).state = 1
  · rw [if_pos hocc]
    obtain ⟨h0, h1⟩ := (goodCell_nth mvel cells hg index).1 hocc
    exact goodLane_set mvel _ _ _ (goodLane_set mvel _ _ _ hst (goodCell_empty mvel))
      (goodCell_car mvel _ h0 h1)
  · rw [if_neg hocc]
    exact hst

theorem moveT_good (mvel : Int) (cells : List Cell) (n : Nat)
    (hg : goodLane mvel cells) : goodLane mvel (moveT cells n) := by
  unfold moveT
  refine foldl_preserves (fun st : List Cell × Bool => goodLane mvel st.1)
    _ ?_ (List.range cells.length) (cells, false) hg
  intro st index hst
  dsimp only
  by_cases hocc : (nth cells index).state = 1
  · rw [if_pos hocc]
    obtain ⟨h0, h1⟩ := (goodCell_nth mvel cells hg index).1 hocc
    by_cases hflag : st.2 = true
    · rw [if_pos hflag]
      exact goodLane_set mvel _ _ _ hst (goodCell_car mvel _ h0 h1)
    · rw [if_neg hflag]
      exact goodLane_set mvel _ _ _ (goodLane_set mvel _ _ _ hst (goodCell_empty mvel))
        (goodCell_car mvel _ h0 h1)
  · rw [if_neg hocc]
    exact hst

theorem getLane_set_self : ∀ (cells : List (List Cell)) (i : Nat) (x : List Cell),
    i < cells.length → getLane (cells.set i x) i = x := by
  intro cells
  induction cells with
  | nil => intro i x h; simp at h
  | cons a t ih =>
    intro i x h
    cases i with
    | zero => rfl
    | succ m => exact ih m x (by simpa using h)

theorem getLane_set_ne : ∀ (cells : List (List Cell)) (i j : Nat) (x : List Cell),
    i ≠ j → getLane (cells.set i x) j = getLane cells j := by
  intro cells
  induction cells with
  | nil => intro i j x _; rfl
  | cons a t ih =>
    intro i j x h
    cases i with
    | zero =>
      cases j with
      | zero => exact absurd rfl h
      | succ jm => rfl
    | succ km =>
      cases j with
      | zero => rfl
      | succ jm => exact ih km jm x (by omega)

theorem can_change_lanes_true_guard (cells : List (List Cell)) (cell : Cell)
    (i index num_cells : Nat) (mv : List Int)
    (h : can_change_lanes cells cell i index num_cells mv = true) :
    cell.velocity ≤ mv.getD ((i + 1) % 2) 0 := by
  unfold can_change_lanes at h
  by_cases hg : cell.velocity ≤ mv.getD ((i + 1) % 2) 0 ∧
      (nth (getLane cells ((i + 1) % 2)) index).state = 0
  · exact hg.1
  · rw [if_neg hg] at h; cases h

theorem lcCommit_can (copy : List (List Cell)) (n : Nat) (mv : List Int) (i k : Nat)
    (h : lcCommit copy n mv i k = true) :
    can_change_lanes copy (nth (getLane copy i) k) i k n mv = true := by
  unfold lcCommit lcDecision at h
  exact ((Bool.and_eq_true _ _).mp ((Bool.and_eq_true _ _).mp h).2).2

/-- The pointwise lane-change commit map preserves the per-lane velocity
bounds: cleared cells are reset to the empty sentinel, and a vehicle moving
across carries a velocity that its `can_change_lanes` guard bounded by the
destination lane's speed limit. -/
theorem lcPure_good (l0 l1 : List Cell) (n : Nat) (mv : List Int)
    (hg0 : goodLane (mv.getD 0 0) l0) (hg1 : goodLane (mv.getD 1 0) l1) :
    goodLane (mv.getD 0 0) (getLane (lcPure [l0, l1] n mv) 0) ∧
    goodLane (mv.getD 1 0) (getLane (lcPure [l0, l1] n mv) 1) := by
  constructor
  · intro c hc
    have hc2 : c ∈ (List.range (getLane [l0, l1] 0).length).map (fun k =>
        if lcCommit [l0, l1] n mv 0 k then emptyCell
        else if lcCommit [l0, l1] n mv 1 k then ⟨1, (nth (getLane [l0, l1] 1) k).velocity⟩
        else nth (getLane [l0, l1] 0) k) := hc
    obtain ⟨k, -, rfl⟩ := List.mem_map.mp hc2
    by_cases h0 : lcCommit [l0, l1] n mv 0 k = true
    · rw [if_pos h0]; exact goodCell_empty _
    · rw [if_neg h0]
      by_cases h1 : lcCommit [l0, l1] n mv 1 k = true
      · rw [if_pos h1]
        have hst : (nth (getLane [l0, l1] 1) k).state = 1 :=
          lcCommit_state [l0, l1] n mv 1 k h1
        have hguard := can_change_lanes_true_guard [l0, l1] _ 1 k n mv
          (lcCommit_can [l0, l1] n mv 1 k h1)
        have hgood : goodCell (mv.getD 1 0) (nth (getLane [l0, l1] 1) k) :=
          goodCell_nth (mv.getD 1 0) l1 hg1 k
        obtain ⟨hb0, -⟩ := hgood.1 hst
        exact goodCell_car _ _ hb0 hguard
      · rw [if_neg h1]
        exact goodCell_nth (mv.getD 0 0) l0 hg0 k
  · intro c hc
    have hc2 : c ∈ (List.range (getLane [l0, l1] 1).length).map (fun k =>
        if lcCommit [l0, l1] n mv 1 k then emptyCell
        else if lcCommit [l0, l1] n mv 0 k then ⟨1, (nth (getLane [l0, l1] 0) k).velocity⟩
        else nth (getLane [l0, l1] 1) k) := hc
    obtain ⟨k, -, rfl⟩ := List.mem_map.mp hc2
    by_cases h1 : lcCommit [l0, l1] n mv 1 k = true
    · rw [if_pos h1]; exact goodCell_empty _
    · rw [if_neg h1]
      by_cases h0 : lcCommit [l0, l1] n mv 0 k = true
      · rw [if_pos h0]
        have hst : (nth (getLane [l0, l1] 0) k).state = 1 :=
          lcCommit_state [l0, l1] n mv 0 k h0
        have hguard := can_change_lanes_true_guard [l0, l1] _ 0 k n mv
          (lcCommit_can [l0, l1] n mv 0 k h0)
        have hgood : goodCell (mv.getD 0 0) (nth (getLane [l0, l1] 0) k) :=
          goodCell_nth (mv.getD 0 0) l0 hg0 k
        obtain ⟨hb0, -⟩ := hgood.1 hst
        exact goodCell_car _ _ hb0 hguard
      · rw [if_neg h0]
        exact goodCell_nth (mv.getD 1 0) l1 hg1 k

theorem decelLoop_good (copy : List (List Cell)) (n : Nat) (p : ℚ) (draws : Nat → ℚ)
    (i : Nat) (mv0 mv1 : Int) (hi : i = 0 ∨ i = 1) :
    ∀ (l : List Nat) (live : List (List Cell)) (t : Nat),
      goodLane mv0 (getLane live 0) → goodLane mv1 (getLane live 1) →
      goodLane mv0 (getLane (decelLoop copy n p draws i l live t).1 0) ∧
      goodLane mv1 (getLane (decelLoop copy n p draws i l live t).1 1) := by
  intro l
  induction l with
  | nil => intro live t hg0 hg1; exact ⟨hg0, hg1⟩
  | cons index rest ih =>
    intro live t hg0 hg1
    by_cases hocc : (nth (getLane live i) index).state = 1
    · simp only [decelLoop, if_pos hocc]
      apply ih
      · -- lane 0 after the write
        rcases hi with rfl | rfl
        · by_cases hL : 0 < live.length
          · rw [getLane_set_self live 0 _ hL]
            refine goodLane_set mv0 _ _ _ hg0 ?_
            obtain ⟨h0, h1⟩ := (goodCell_nth mv0 (getLane live 0) hg0 index).1 hocc
            obtain ⟨hd0, hd1⟩ := decelerate_bounds _ mv0 _ h0 h1
            obtain ⟨hr0, hr1⟩ := randomize_bounds _ mv0 (draws t) p hd0 hd1
            exact ⟨fun _ => ⟨hr0, hr1⟩, fun hne => absurd hocc hne⟩
          · rw [List.set_eq_of_length_le (by omega)]
            exact hg0
        · rw [getLane_set_ne live 1 0 _ (by decide)]
          exact hg0
      · -- lane 1 after the write
        rcases hi with rfl | rfl
        · rw [getLane_set_ne live 0 1 _ (by decide)]
          exact hg1
        · by_cases hL : 1 < live.length
          · rw [getLane_set_self live 1 _ hL]
            refine goodLane_set mv1 _ _ _ hg1 ?_
            obtain ⟨h0, h1⟩ := (goodCell_nth mv1 (getLane live 1) hg1 index).1 hocc
            obtain ⟨hd0, hd1⟩ := decelerate_bounds _ mv1 _ h0 h1
            obtain ⟨hr0, hr1⟩ := randomize_bounds _ mv1 (draws t) p hd0 hd1
            exact ⟨fun _ => ⟨hr0, hr1⟩, fun hne => absurd hocc hne⟩
          · rw [List.set_eq_of_length_le (by omega)]
            exact hg1
    · simp only [decelLoop, if_neg hocc]
      exact ih live t hg0 hg1

theorem movePhase_good (mv0 mv1 : Int) (n : Nat) (cells : List (List Cell))
    (hg0 : goodLane mv0 (getLane cells 0)) (hg1 : goodLane mv1 (getLane cells 1)) :
    goodLane mv0 (getLane (movePhase n cells) 0) ∧
    goodLane mv1 (getLane (movePhase n cells) 1) := by
  unfold movePhase
  constructor
  · rw [getLane_set_ne _ 1 0 _ (by decide)]
    by_cases hL : 0 < cells.length
    · rw [getLane_set_self cells 0 _ hL]
      exact moveT_good mv0 _ n hg0
    · rw [List.set_eq_of_length_le (by omega)]
      exact hg0
  · by_cases hL : 1 < (cells.set 0 (moveT (getLane cells 0) n)).length
    · rw [getLane_set_self _ 1 _ hL, getLane_set_ne cells 0 1 _ (by decide)]
      exact moveT_good mv1 _ n hg1
    · rw [List.set_eq_of_length_le (by omega), getLane_set_ne cells 0 1 _ (by decide)]
      exact hg1

theorem velLoopS_good (n : Nat) (mvel : Int) (p : ℚ) (draws : Nat → ℚ) :
    ∀ (l : List Nat) (cells : List Cell) (t : Nat) (out : List Cell × Nat),
      goodLane mvel cells → velLoopS n mvel p draws l cells t = some out →
      goodLane mvel out.1 := by
  intro l
  induction l with
  | nil =>
    intro cells t out hg heq
    simp only [velLoopS] at heq
    cases heq
    exact hg
  | cons index rest ih =>
    intro cells t out hg heq
    by_cases hocc : (nth cells index).state = 1
    · simp only [velLoopS, if_pos hocc] at heq
      cases hd : distanceS cells index n with
      | none => rw [hd] at heq; cases heq
      | some d =>
        rw [hd] at heq
        refine ih _ _ _ ?_ heq
        refine goodLane_set mvel _ _ _ hg ?_
        obtain ⟨h0, h1⟩ := (goodCell_nth mvel cells hg index).1 hocc
        obtain ⟨ha0, ha1⟩ := accelerate_bounds _ mvel h0 h1
        obtain ⟨hd0, hd1⟩ := decelerate_bounds _ mvel d ha0 ha1
        obtain ⟨hr0, hr1⟩ := randomize_bounds _ mvel (draws t) p hd0 hd1
        exact ⟨fun _ => ⟨hr0, hr1⟩, fun hne => absurd hocc hne⟩
    · simp only [velLoopS, if_neg hocc] at heq
      exact ih _ _ _ hg heq

/-! ## Claim theorems -/

set_option maxRecDepth 8000

/-- Claim C1 (the claim is right, the code is wrong): the spec asserts that
the total occupied-cell count is conserved by every update step, but the
two-lane `update` is not conservative.  On this road — all velocities within
bounds, empty cells at -1 — the car at `(1, 0)` and the car at `(1, 4)` both
change into lane 0; the one at index 4 dallies down to velocity 0, so the move
phase of lane 0 has the car from index 0 (velocity 4) land exactly on cell 4.
The `lane_change` flag then makes the stationary car rewrite cell 4 without
its source having been cleared by anyone, and the moving car is destroyed:
five cars become four. -/
theorem two_lane_update_breaks_conservation :
    goodLane 5 consLane0 ∧ goodLane 5 consLane1 ∧
    carCount2 [consLane0, consLane1] = 5 ∧
    carCount2 (updateT [consLane0, consLane1] 12 [5, 5] (mkRat 1 2) consDraws 0).1 = 4 := by
  refine ⟨?_, ?_, by decide, by decide⟩ <;> decide

/-- Claim C2 counterexample: on `collideLane` the two cars both compute target
cell 2 (neither's own source).  The single-lane `move` is not fatal — it
returns a successor state — the collision report carries only the cell index
(`move` is never given the timestep), and the first arriving vehicle is
overwritten by the second: the car count silently drops from 2 to 1. -/
theorem move_collision_not_fatal :
    (moveS collideLane 4).2 = [2] ∧ carCount (moveS collideLane 4).1 = 1 ∧
      carCount collideLane = 2 := by decide

/-- Claim C2 (amended): a destination collision in the single-lane move phase
is reported only by a console message naming the colliding cell index — the
timestep is not reported — after which the move continues and commits, so the
occupant of the destination cell is overwritten (here both cars merge into
cell 2, keeping the later writer's velocity 1); the two-lane move phase
detects the same situation but reports nothing at all. -/
theorem move_collision_report_behavior :
    moveS collideLane 4 = ([emptyCell, emptyCell, car 1, emptyCell], [2]) ∧
    moveT collideLane 4 = [emptyCell, emptyCell, car 1, emptyCell] := by decide

/-- Claim C5 counterexample: a single-lane road holding one vehicle, queried
from that vehicle.  The claim requires the unobstructed convention — a return
of `road_length` (3) — but the single-lane `distance` falls through without
returning a gap (`None`). -/
theorem distance_single_lane_fallthrough :
    distanceS [car 0, emptyCell, emptyCell] 0 3 = none ∧
    distanceS [car 0, emptyCell, emptyCell] 0 3 ≠ some 3 := by decide

/-- Claim C9 counterexample: with dally probability `p = 0` the draw 0 — a
possible value of `random.random()`, which ranges over `[0, 1)` — still
changes the velocity (3 becomes 2), because the code tests `draw <= p` rather
than `draw < p`. -/
theorem dally_zero_prob_counterexample :
    (0 : ℚ) ≤ 0 ∧ (0 : ℚ) < 1 ∧ randomize 3 0 0 = 2 ∧ randomize 3 0 0 ≠ 3 := by decide

/-- Claim C9 (amended): the dally step decrements the velocity to
`max (v-1) 0` exactly when the sampled draw is at most `p`; hence with `p = 0`
the velocity is unchanged for every strictly positive draw, but the boundary
draw 0 is decremented. -/
theorem dally_decrement_characterization :
    ∀ (v : Int) (draw p : ℚ),
      (0 < draw → randomize v draw 0 = v) ∧
      (draw ≤ p → randomize v draw p = max (v - 1) 0) ∧
      (p < draw → randomize v draw p = v) := by
  intro v draw p
  refine ⟨fun h => ?_, fun h => ?_, fun h => ?_⟩
  · simp [randomize, not_le.mpr h]
  · simp [randomize, h]
  · simp [randomize, not_le.mpr h]

/-- Witness for C9's theorem at `v = 4`, `draw = 1/2`, `p = 0`. -/
theorem dally_decrement_characterization_witness :
    (0 : ℚ) < mkRat 1 2 ∧ randomize 4 (mkRat 1 2) 0 = 4 :=
  ⟨by decide, (dally_decrement_characterization 4 (mkRat 1 2) 0).1 (by decide)⟩

/-- Claim C5 (amended): the gap query returns the number of empty cells
strictly between the query cell and the first occupied cell found scanning
cyclically — a first hit at offset `i₀` past `i₀ - 1` unoccupied cells yields
`i₀ - 1`, so adjacent occupancy yields gap 0 — and when the scanned lane holds
no other vehicle the two-lane `distance` returns `road_length` in both its
same-lane and other-lane branches; the single-lane `distance`, however, then
falls through with no result (`none`) instead of returning `road_length`. -/
theorem gap_query_characterization :
    (∀ (cells : List (List Cell)) (curr_cells : List Cell)
        (index num_cells lane : Nat) (direction : Int),
        (∀ i, 1 ≤ i → i < curr_cells.length →
          (nth curr_cells (idx (direction * i + index) num_cells)).state ≠ 1) →
        distanceT cells curr_cells index num_cells lane lane direction = num_cells) ∧
    (∀ (cells : List (List Cell)) (curr_cells : List Cell)
        (index num_cells curr_lane intended_lane : Nat) (direction : Int),
        curr_lane ≠ intended_lane →
        (∀ i, 1 ≤ i → i < curr_cells.length →
          (nth (getLane cells intended_lane) (idx (direction * i + index) num_cells)).state ≠ 1) →
        distanceT cells curr_cells index num_cells curr_lane intended_lane direction = num_cells) ∧
    (∀ (cells : List (List Cell)) (curr_cells : List Cell)
        (index num_cells lane : Nat) (direction : Int) (i₀ : Nat),
        1 ≤ i₀ → i₀ < curr_cells.length →
        (nth curr_cells (idx (direction * i₀ + index) num_cells)).state = 1 →
        (∀ i, 1 ≤ i → i < i₀ →
          (nth curr_cells (idx (direction * i + index) num_cells)).state ≠ 1) →
        distanceT cells curr_cells index num_cells lane lane direction = i₀ - 1) ∧
    (∀ (cells : List (List Cell)) (curr_cells : List Cell)
        (index num_cells curr_lane intended_lane : Nat) (direction : Int) (i₀ : Nat),
        curr_lane ≠ intended_lane →
        1 ≤ i₀ → i₀ < curr_cells.length →
        (nth (getLane cells intended_lane) (idx (direction * i₀ + index) num_cells)).state = 1 →
        (∀ i, 1 ≤ i → i < i₀ →
          (nth (getLane cells intended_lane) (idx (direction * i + index) num_cells)).state ≠ 1) →
        distanceT cells curr_cells index num_cells curr_lane intended_lane direction = i₀ - 1) ∧
    (∀ (cells : List Cell) (index num_cells : Nat),
        (∀ i, 1 ≤ i → i < cells.length →
          (nth cells ((i + index) % num_cells)).state ≠ 1) →
        distanceS cells index num_cells = none) ∧
    (∀ (cells : List Cell) (index num_cells : Nat) (i₀ : Nat),
        1 ≤ i₀ → i₀ < cells.length →
        (nth cells ((i₀ + index) % num_cells)).state = 1 →
        (∀ i, 1 ≤ i → i < i₀ → (nth cells ((i + index) % num_cells)).state ≠ 1) →
        distanceS cells index num_cells = some (i₀ - 1)) :=
  ⟨distanceT_none_same,
    fun cells curr index n cl il dir hne h => distanceT_none_other cells curr index n cl il dir hne h,
    fun cells curr index n lane dir i₀ h1 h2 h3 h4 =>
      distanceT_some_same cells curr index n lane dir i₀ h1 h2 h3 h4,
    fun cells curr index n cl il dir i₀ hne h1 h2 h3 h4 =>
      distanceT_some_other cells curr index n cl il dir i₀ hne h1 h2 h3 h4,
    distanceS_none, distanceS_some⟩

/-- Every position of a three-cell empty lane reads as unoccupied. -/
theorem nth_empty3 (j : Nat) : nth [emptyCell, emptyCell, emptyCell] j = emptyCell := by
  rcases j with _ | _ | _ | k <;> rfl

/-- Witness for C5's theorem: on an all-empty three-cell lane the same-lane
forward query from index 0 returns the road length 3. -/
theorem gap_query_characterization_witness :
    distanceT [[emptyCell, emptyCell, emptyCell], [emptyCell, emptyCell, emptyCell]]
      [emptyCell, emptyCell, emptyCell] 0 3 0 0 1 = 3 :=
  gap_query_characterization.1 _ _ 0 3 0 1
    (fun i _ _ => by rw [nth_empty3]; decide)

/-- The per-vehicle velocity loop of the single-lane `update` dies as soon as
it reaches an occupied index whose distance query falls through, provided the
other listed indices are unoccupied. -/
theorem velLoopS_none_of_mem (num_cells : Nat) (mv : Int) (p : ℚ) (draws : Nat → ℚ)
    (j : Nat) :
    ∀ (l : List Nat) (cells : List Cell) (t : Nat),
      j ∈ l → (nth cells j).state = 1 → distanceS cells j num_cells = none →
      (∀ k, k ∈ l → k ≠ j → (nth cells k).state ≠ 1) →
      velLoopS num_cells mv p draws l cells t = none := by
  intro l
  induction l with
  | nil => intro cells t hmem; cases hmem
  | cons a rest ih =>
    intro cells t hmem hocc hnone hskip
    by_cases ha : a = j
    · subst ha
      simp only [velLoopS, if_pos hocc, hnone]
    · have hskipa : (nth cells a).state ≠ 1 :=
        hskip a (List.mem_cons_self a rest) ha
      have hmem' : j ∈ rest := by
        rcases List.mem_cons.mp hmem with h | h
        · exact absurd h.symm ha
        · exact h
      simp only [velLoopS, if_neg hskipa]
      exact ih cells t hmem' hocc hnone
        (fun k hk => hskip k (List.mem_cons_of_mem a hk))

/-- Claim C10: on a single-lane road holding exactly one vehicle, the
single-lane `update` does not complete: the distance scan from the vehicle
finds no other occupied cell and falls through without a gap, and the
comparison of the velocity against this missing gap inside `decelerate` is an
error (`none` here, a `TypeError` in Python), reachable at the public
`update` interface. -/
theorem single_vehicle_update_fails :
    ∀ (cells : List Cell) (num_cells : Nat) (max_velocity : Int) (p : ℚ)
      (draws : Nat → ℚ) (t j : Nat),
      num_cells = cells.length → j < num_cells → (nth cells j).state = 1 →
      (∀ k, k < num_cells → k ≠ j → (nth cells k).state ≠ 1) →
      updateS cells num_cells max_velocity p draws t = none := by
  intro cells n mv p draws t j hn hj hocc huniq
  have hnone : distanceS cells j n = none := by
    apply distanceS_none
    intro i h1 h2
    have hin : i < n := by omega
    have hmlt : (i + j) % n < n := Nat.mod_lt _ (by omega)
    have hmne : (i + j) % n ≠ j := by
      intro he
      have hmods : j ≡ i + j [MOD n] := by
        unfold Nat.ModEq
        rw [he, Nat.mod_eq_of_lt hj]
      have hdvd : n ∣ i + j - j := (Nat.modEq_iff_dvd' (by omega)).mp hmods
      rw [Nat.add_sub_cancel] at hdvd
      have := Nat.le_of_dvd (by omega) hdvd
      omega
    exact huniq _ hmlt hmne
  unfold updateS
  rw [velLoopS_none_of_mem n mv p draws j (List.range cells.length) cells t
    (List.mem_range.mpr (by omega)) hocc hnone
    (fun k hk => huniq k (by rw [hn]; exact List.mem_range.mp hk))]

/-- Witness for C10: a three-cell lane with a single vehicle at index 0. -/
theorem single_vehicle_update_fails_witness :
    updateS [car 2, emptyCell, emptyCell] 3 5 0 (fun _ => 1) 0 = none :=
  single_vehicle_update_fails [car 2, emptyCell, emptyCell] 3 5 0 (fun _ => 1) 0 0
    rfl (by decide) (by decide) (by decide)

/-- Claim C3: for every two-lane state, index and snapshot, `can_change_lanes`
returns true exactly when both guards hold (velocity at most the destination
lane's maximum, laterally adjacent destination cell unoccupied) and the four
safety conditions hold over the same snapshot, with gaps computed by the
distance query in the corresponding lane and direction; when any guard or
condition fails the predicate is false and the update leaves the vehicle in
its lane. -/
theorem can_change_lanes_iff_spec :
    ∀ (cells : List (List Cell)) (cell : Cell) (i index num_cells : Nat)
      (max_vels : List Int),
      can_change_lanes cells cell i index num_cells max_vels = true ↔
      can_change_lanes_spec cells cell i index num_cells max_vels := by
  intro cells cell i index n mv
  by_cases h : cell.velocity ≤ mv.getD ((i + 1) % 2) 0 ∧
      (nth (getLane cells ((i + 1) % 2)) index).state = 0
  · simp only [can_change_lanes, can_change_lanes_spec, if_pos h, Bool.and_eq_true,
      decide_eq_true_eq]
    tauto
  · simp only [can_change_lanes, can_change_lanes_spec, if_neg h]
    simp only [Bool.false_eq_true, false_iff]
    tauto

/-- Claim C8: at most one lane-change decision per vehicle per step.  If the
snapshot commits a change for the vehicle at `(0, index)` — which requires the
snapshot to record it in lane 0 — then when the lane-change pass over lane 1
reaches its new cell in the same step, the decision evaluated there is false,
whatever cell data the live lane now holds: the `can_change_lanes` guard reads
the frozen snapshot, whose lane 0 still records the vehicle. -/
theorem no_second_lane_change :
    ∀ (copy : List (List Cell)) (num_cells : Nat) (max_vels : List Int) (index : Nat)
      (liveCell : Cell),
      lcCommit copy num_cells max_vels 0 index = true →
      lcDecision copy num_cells max_vels 1 index liveCell = false := by
  intro copy n mv index c h
  unfold lcCommit at h
  have h1 : (nth (getLane copy 0) index).state = 1 :=
    beq_iff_eq.mp ((Bool.and_eq_true _ _).mp h).1
  unfold lcDecision
  rw [can_change_lanes_lane1_false copy _ index n mv h1, Bool.and_false]

/-- Witness for C8 at the notebook's condition-1 fixture: the vehicle at
`(0, 0)` commits a lane change, and the decision at `(1, 0)` is false. -/
theorem no_second_lane_change_witness :
    lcCommit lcDemo 5 [5, 7] 0 0 = true ∧ lcDecision lcDemo 5 [5, 7] 1 0 (car 2) = false :=
  ⟨by decide, no_second_lane_change lcDemo 5 [5, 7] 0 (car 2) (by decide)⟩

/-- Claim C4: the lane-change phase of the two-lane update is evaluated per
vehicle strictly against the frozen post-acceleration snapshot, and a change
is committed only for a vehicle the snapshot records whose post-acceleration
velocity strictly exceeds its same-lane forward gap (`lcCommit` bundles the
trigger `velocity > distance` and `can_change_lanes`, both read from the
snapshot).  Consequently the sequential two-pass phase run by `update` equals
the order-independent pointwise map `lcPure` of the snapshot: no vehicle's
lane-change decision depends on another vehicle's commit made in the same
step.  (The subsequent deceleration phase likewise passes the snapshot `copy`
to its `distance` query by construction of `decelLoop`.) -/
theorem lane_change_phase_snapshot_pure :
    ∀ (l0 l1 : List Cell) (num_cells : Nat) (max_vels : List Int),
      l1.length = l0.length →
      lcPhase [l0, l1] num_cells max_vels = lcPure [l0, l1] num_cells max_vels :=
  fun l0 l1 num_cells max_vels hlen => lcPhase_eq_lcPure l0 l1 num_cells max_vels hlen

/-- Witness for C4 at the notebook's condition-1 fixture (the vehicle at
`(0, 0)` commits a change). -/
theorem lane_change_phase_snapshot_pure_witness :
    lcPhase [[car 2, car 3, emptyCell, emptyCell, emptyCell],
        [emptyCell, emptyCell, emptyCell, emptyCell, emptyCell]] 5 [5, 7] =
      lcPure [[car 2, car 3, emptyCell, emptyCell, emptyCell],
        [emptyCell, emptyCell, emptyCell, emptyCell, emptyCell]] 5 [5, 7] :=
  lane_change_phase_snapshot_pure _ _ 5 [5, 7] rfl

/-- Claim C6: the velocity-bounds invariant is preserved by one update step of
either model.  If at the start every occupied cell carries a velocity in
`[0, max]` of its lane and every other cell carries the sentinel -1, the same
holds at the end: acceleration caps at the lane maximum, deceleration and
dallying never go below 0, a lane change respects the destination lane's
maximum via the `can_change_lanes` guard, and cleared cells are reset to -1.
For the single-lane update the conclusion is conditional on the step
completing (`some`), since a lone vehicle makes it fail (claim C10). -/
theorem velocity_bounds_preserved :
    (∀ (cells : List Cell) (num_cells : Nat) (max_velocity : Int) (p : ℚ)
        (draws : Nat → ℚ) (t : Nat) (out : List Cell × List Nat × Nat),
        goodLane max_velocity cells →
        updateS cells num_cells max_velocity p draws t = some out →
        goodLane max_velocity out.1) ∧
    (∀ (l0 l1 : List Cell) (num_cells : Nat) (max_vels : List Int) (p : ℚ)
        (draws : Nat → ℚ) (t : Nat),
        l1.length = l0.length →
        goodLane (max_vels.getD 0 0) l0 → goodLane (max_vels.getD 1 0) l1 →
        goodLane (max_vels.getD 0 0)
          (getLane (updateT [l0, l1] num_cells max_vels p draws t).1 0) ∧
        goodLane (max_vels.getD 1 0)
          (getLane (updateT [l0, l1] num_cells max_vels p draws t).1 1)) := by
  constructor
  · intro cells n mvel p draws t out hg heq
    unfold updateS at heq
    cases hv : velLoopS n mvel p draws (List.range cells.length) cells t with
    | none => rw [hv] at heq; cases heq
    | some st =>
      obtain ⟨c1, t1⟩ := st
      rw [hv] at heq
      cases heq
      exact moveS_good mvel c1 n (velLoopS_good n mvel p draws _ cells t (c1, t1) hg hv)
  · intro l0 l1 n mv p draws t hlen hg0 hg1
    have hpair : ∀ (cells : List (List Cell)),
        updateT cells n mv p draws t = (movePhase n (decelPhase (accelPhase mv cells)
          n p draws (lcPhase (accelPhase mv cells) n mv) t).1,
          (decelPhase (accelPhase mv cells) n p draws
            (lcPhase (accelPhase mv cells) n mv) t).2) := fun _ => rfl
    have hacc : accelPhase mv [l0, l1] =
        [accelLane (mv.getD 0 0) l0, accelLane (mv.getD 1 0) l1] := rfl
    rw [hpair]
    dsimp only
    rw [hacc, lcPhase_eq_lcPure _ _ n mv
      (by unfold accelLane; rw [List.length_map, List.length_map]; exact hlen)]
    have hP := lcPure_good (accelLane (mv.getD 0 0) l0) (accelLane (mv.getD 1 0) l1) n mv
      (accelLane_good (mv.getD 0 0) l0 hg0) (accelLane_good (mv.getD 1 0) l1 hg1)
    unfold decelPhase
    exact movePhase_good _ _ n _
      (decelLoop_good _ n p draws 1 _ _ (Or.inr rfl) _ _ _
        (decelLoop_good _ n p draws 0 _ _ (Or.inl rfl) _ _ _ hP.1 hP.2).1
        (decelLoop_good _ n p draws 0 _ _ (Or.inl rfl) _ _ _ hP.1 hP.2).2).1
      (decelLoop_good _ n p draws 1 _ _ (Or.inr rfl) _ _ _
        (decelLoop_good _ n p draws 0 _ _ (Or.inl rfl) _ _ _ hP.1 hP.2).1
        (decelLoop_good _ n p draws 0 _ _ (Or.inl rfl) _ _ _ hP.1 hP.2).2).2

/-- Witness for C6's theorem on a two-cell, two-lane road. -/
theorem velocity_bounds_preserved_witness :
    goodLane (([5, 5] : List Int).getD 0 0)
      (getLane (updateT [[car 2, emptyCell], [emptyCell, car 1]] 2 [5, 5] 0
        (fun _ => 1) 0).1 0) ∧
    goodLane (([5, 5] : List Int).getD 1 0)
      (getLane (updateT [[car 2, emptyCell], [emptyCell, car 1]] 2 [5, 5] 0
        (fun _ => 1) 0).1 1) :=
  velocity_bounds_preserved.2 [car 2, emptyCell] [emptyCell, car 1] 2 [5, 5] 0
    (fun _ => 1) 0 rfl (by decide) (by decide)

/-- Claim C7: the embedded simulation is a pure function of the configuration
and of the injected random source (the values drawn from Python's seeded
`random` module), so two runs with identical configuration and identical
random source produce identical snapshot sequences — for the single-lane and
the two-lane `simulate` alike. -/
theorem simulation_deterministic :
    (∀ (mv₁ mv₂ occ₁ occ₂ : Int) (n₁ n₂ T₁ T₂ : Nat) (p₁ p₂ : ℚ) (imp₁ imp₂ : Int)
        (s₁ s₂ : RandSrcS), mv₁ = mv₂ → occ₁ = occ₂ → n₁ = n₂ → T₁ = T₂ → p₁ = p₂ →
        imp₁ = imp₂ → s₁ = s₂ →
        simulateS mv₁ occ₁ n₁ T₁ p₁ imp₁ s₁ = simulateS mv₂ occ₂ n₂ T₂ p₂ imp₂ s₂) ∧
    (∀ (mvs₁ mvs₂ occs₁ occs₂ : List Int) (n₁ n₂ T₁ T₂ : Nat) (p₁ p₂ : ℚ)
        (s₁ s₂ : RandSrcT), mvs₁ = mvs₂ → occs₁ = occs₂ → n₁ = n₂ → T₁ = T₂ → p₁ = p₂ →
        s₁ = s₂ →
        simulateT mvs₁ occs₁ n₁ T₁ p₁ s₁ = simulateT mvs₂ occs₂ n₂ T₂ p₂ s₂) := by
  constructor
  · intro mv₁ mv₂ occ₁ occ₂ n₁ n₂ T₁ T₂ p₁ p₂ imp₁ imp₂ s₁ s₂ h₁ h₂ h₃ h₄ h₅ h₆ h₇
    subst h₁; subst h₂; subst h₃; subst h₄; subst h₅; subst h₆; subst h₇; rfl
  · intro mvs₁ mvs₂ occs₁ occs₂ n₁ n₂ T₁ T₂ p₁ p₂ s₁ s₂ h₁ h₂ h₃ h₄ h₅ h₆
    subst h₁; subst h₂; subst h₃; subst h₄; subst h₅; subst h₆; rfl

/-- Witness for C7 at a small concrete two-lane configuration. -/
theorem simulation_deterministic_witness :
    simulateT [5, 5] [20, 20] 4 1 0 ⟨[0], [2], (fun _ => 1), (fun _ => 1), fun _ => 1⟩ =
      simulateT [5, 5] [20, 20] 4 1 0 ⟨[0], [2], (fun _ => 1), (fun _ => 1), fun _ => 1⟩ :=
  simulation_deterministic.2 _ _ _ _ _ _ _ _ _ _ _ _ rfl rfl rfl rfl rfl rfl

end Traffic
